import Mathlib

/-!
Verification of the counter and formatting logic of `src/app.py` (a Discord
log-formatting bot).  Python strings are modelled as `List Char`, the
in-memory `log_numbers` dict as an insertion-ordered association list with
unique keys, and Python's arbitrary-precision integers as `Int`.  The
persistence side effects (`save_log_numbers`) and the Discord plumbing are
external collaborators; the state threaded through the command handlers is
the in-memory mapping, and each handler returns its visible response
together with the updated mapping.
-/

/-- Python strings, modelled character by character. -/
abbrev Str := List Char

/-- The `log_numbers` mapping: user-id keys to counter values, in insertion
order, with unique keys (as in a Python dict). -/
abbrev Counters := List (Str × Int)

/-- Python `k in d` / `d[k]` lookup on the association-list model of a dict. -/
def lookup : Counters → Str → Option Int
  | [], _ => none
  | (k, v) :: rest, u => if k = u then some v else lookup rest u

/-- Python `d[k] = v`: replace the value of an existing key in place, or
append a new key at the end (Python dicts preserve insertion order). -/
def dictSet : Counters → Str → Int → Counters
  | [], u, v => [(u, v)]
  | (k, w) :: rest, u, v =>
      if k = u then (k, v) :: rest else (k, w) :: dictSet rest u v

/-- Whitespace test used by the model of Python `str.strip`. -/
def pySpace (c : Char) : Bool := c.isWhitespace

/-- Model of Python `str.strip()`: drop whitespace from both ends. -/
def pyStrip (s : Str) : Str :=
  ((s.dropWhile pySpace).reverse.dropWhile pySpace).reverse

/-- Model of Python `str.upper()`, character by character. -/
def pyUpper (s : Str) : Str := s.map Char.toUpper

/-- `generate_user_code` from `src/app.py` (lines 61-72): codes are built
from the stripped username.  Note the `len < 2` branch is
`f"{username * 2}{username * 2}"`: the (possibly empty) username repeated
four times. -/
def generate_user_code (username : Str) : Str :=
  let u := pyStrip username
  if u.length < 2 then
    pyUpper ((u ++ u) ++ (u ++ u))
  else if u.length = 2 then
    pyUpper (u ++ u)
  else if u.length = 3 then
    pyUpper (u.take 2 ++ (u.drop (u.length - 1) ++ u.drop (u.length - 1)))
  else
    pyUpper (u.take 2 ++ u.drop (u.length - 2))

/-- `get_next_log_number` from `src/app.py` (lines 37-45): initialise an
absent key to 1, otherwise increment, then return the stored value.  The
`save_log_numbers` call is an external persistence effect whose failures
are swallowed; the returned mapping is the in-memory state. -/
def get_next_log_number (m : Counters) (user_id : Str) : Int × Counters :=
  match lookup m user_id with
  | none => (1, dictSet m user_id 1)
  | some v => (v + 1, dictSet m user_id (v + 1))

/-- Decimal digit characters of a natural number, most significant first.
The first argument is recursion fuel; `n + 1` units always suffice since
the value shrinks by a factor of 10 each step. -/
def natStrGo : Nat → Nat → Str
  | 0, _ => []
  | fuel + 1, n =>
      if n < 10 then [Nat.digitChar n]
      else natStrGo fuel (n / 10) ++ [Nat.digitChar (n % 10)]

/-- Decimal representation of a natural number, as Python `str` renders it. -/
def natStr (n : Nat) : Str := natStrGo (n + 1) n

/-- Decimal representation of an integer, as Python `str` renders it. -/
def intStr (v : Int) : Str :=
  if v < 0 then '-' :: natStr v.natAbs else natStr v.toNat

/-- Python `f"{v:02d}"`: pad the decimal representation with zeros to a
minimum total width of 2 (for width 2 only one-character representations,
i.e. single non-negative digits, receive a leading zero). -/
def format_02d (v : Int) : Str :=
  let s := intStr v
  if s.length < 2 then '0' :: s else s

/-- The formatted log entry built in `log_command` (lines 101-104):
`[<code>] [<number:02d>] <date>:` then a newline and the message. -/
def format_entry (user_code : Str) (log_number : Int) (log_date : Str)
    (message : Str) : Str :=
  ['['] ++ user_code ++ [']', ' ', '['] ++ format_02d log_number
    ++ [']', ' '] ++ log_date ++ [':', '\n'] ++ message

/-- The exact ten-character body of the date regex: two digits, a slash,
two digits, a slash, four digits. -/
def date_body (d : Str) : Bool :=
  match d with
  | [d1, d2, s1, m1, m2, s2, y1, y2, y3, y4] =>
      d1.isDigit && d2.isDigit && s1 = '/' && m1.isDigit && m2.isDigit
        && s2 = '/' && y1.isDigit && y2.isDigit && y3.isDigit && y4.isDigit
  | _ => false

/-- Embedding of `re.match(r'^\d{2}/\d{2}/\d{4}$', d)` from `log_command`:
the ten-character body, where Python's `$` anchor also matches just before
a single newline at the very end of the string. -/
def date_pattern_match (d : Str) : Bool :=
  date_body d || (d.getLast? = some '\n' && date_body d.dropLast)

/-- The date pattern as the claims state it: exactly two digits, a slash,
two digits, a slash, and four digits, nothing else.  Written from the
spec's words, to be compared with `date_pattern_match` from the source. -/
def date_pattern_spec (d : Str) : Bool :=
  match d with
  | [d1, d2, s1, m1, m2, s2, y1, y2, y3, y4] =>
      d1.isDigit && d2.isDigit && s1 = '/' && m1.isDigit && m2.isDigit
        && s2 = '/' && y1.isDigit && y2.isDigit && y3.isDigit && y4.isDigit
  | _ => false

/-- The visible outcome of a `/log` invocation: either the private
invalid-date error, or the public formatted entry. -/
inductive LogResponse where
  | invalidDate : LogResponse
  | entry : Str → LogResponse
deriving DecidableEq

/-- The `ephemeral=True` flag on each `/log` response in the source: the
invalid-date message is private, the formatted entry is public. -/
def LogResponse.ephemeral : LogResponse → Bool
  | .invalidDate => true
  | .entry _ => false

/-- `log_command` from `src/app.py` (lines 79-106).  `user_id` is
`str(interaction.user.id)`, `username` is `interaction.user.name`, and
`nowStr` is the already-formatted current IST time used when no usable
date is supplied.  Faithful details: the counter is obtained (and the
mapping mutated) before the date is validated, and Python's `if date:` is
falsy both for `None` and for the empty string. -/
def log_command (m : Counters) (user_id username message : Str)
    (date : Option Str) (nowStr : Str) : LogResponse × Counters :=
  let user_code := generate_user_code username
  let next := get_next_log_number m user_id
  match date with
  | some d =>
      if d.isEmpty then
        (.entry (format_entry user_code next.1 nowStr message), next.2)
      else if date_pattern_match d then
        (.entry (format_entry user_code next.1 d message), next.2)
      else
        (.invalidDate, next.2)
  | none =>
      (.entry (format_entry user_code next.1 nowStr message), next.2)

/-- The visible outcome of a `/reset_log` invocation. -/
inductive ResetResponse where
  | notAdminError : ResetResponse
  | adminReset : Str → Int → ResetResponse
  | selfReset : Int → ResetResponse
deriving DecidableEq

/-- The `ephemeral=True` flag on each `/reset_log` response in the source:
the authorization error and the self-reset confirmation are private, an
admin reset of another user is public. -/
def ResetResponse.ephemeral : ResetResponse → Bool
  | .notAdminError => true
  | .adminReset _ _ => false
  | .selfReset _ => true

/-- `reset_log_command` from `src/app.py` (lines 114-132): if a target
user is supplied and the invoker is not an administrator, reject; else set
the target's (or the invoker's own) counter unconditionally to
`new_number`. -/
def reset_log_command (m : Counters) (invoker_id : Str) (is_admin : Bool)
    (user : Option Str) (new_number : Int) : ResetResponse × Counters :=
  match user with
  | some t =>
      if ¬is_admin then (.notAdminError, m)
      else (.adminReset t new_number, dictSet m t new_number)
  | none => (.selfReset new_number, dictSet m invoker_id new_number)

/-- `n` successive calls of `get_next_log_number` for the same user,
returning the list of issued numbers in call order and the final mapping. -/
def runNext (m : Counters) (u : Str) : Nat → List Int × Counters
  | 0 => ([], m)
  | n + 1 =>
      let r := get_next_log_number m u
      let rest := runNext r.2 u n
      (r.1 :: rest.1, rest.2)

example : generate_user_code "alice".toList = "ALCE".toList := by decide
example : generate_user_code ['a'] = "AAAA".toList := by decide
example : generate_user_code [] = [] := by decide
example : date_pattern_match "31/02/2024".toList = true := by decide
example : date_pattern_match ("31/02/2024".toList ++ ['\n']) = true := by decide
example : date_pattern_spec ("31/02/2024".toList ++ ['\n']) = false := by decide
example : format_02d 3 = "03".toList := by decide
example : format_02d 150 = "150".toList := by decide
example : format_02d (-5) = "-5".toList := by decide
example : (runNext [] "u".toList 3).1 = [1, 2, 3] := by decide

/-! ### Character and map lemmas -/

theorem toUpper_eq (c : Char) :
    Char.toUpper c =
      if c.toNat ≥ 97 ∧ c.toNat ≤ 122 then Char.ofNat (c.toNat - 32) else c := rfl

theorem toNat_ofNat_valid (m : Nat) (h : m < 55296) : (Char.ofNat m).toNat = m := by
  have hv : Nat.isValidChar m := Or.inl h
  unfold Char.ofNat
  rw [dif_pos hv]
  rfl

theorem upper_out_of_lower_range (c : Char) :
    ¬((Char.toUpper c).toNat ≥ 97 ∧ (Char.toUpper c).toNat ≤ 122) := by
  rw [toUpper_eq]
  split
  · rename_i h
    rw [toNat_ofNat_valid _ (by omega)]
    omega
  · rename_i h
    exact h

theorem toUpper_toUpper (c : Char) :
    Char.toUpper (Char.toUpper c) = Char.toUpper c := by
  rw [toUpper_eq (Char.toUpper c), if_neg (upper_out_of_lower_range c)]

theorem lookup_dictSet_self (m : Counters) (u : Str) (v : Int) :
    lookup (dictSet m u v) u = some v := by
  induction m with
  | nil => simp [dictSet, lookup]
  | cons kv rest ih =>
      obtain ⟨k, w⟩ := kv
      by_cases h : k = u
      · simp [dictSet, lookup, h]
      · simp [dictSet, lookup, h, ih]

theorem lookup_dictSet_ne (m : Counters) (u k : Str) (v : Int) (h : k ≠ u) :
    lookup (dictSet m u v) k = lookup m k := by
  induction m with
  | nil =>
      simp only [dictSet, lookup]
      rw [if_neg (fun hh => h hh.symm)]
  | cons kv rest ih =>
      obtain ⟨k2, w⟩ := kv
      by_cases h2 : k2 = u
      · subst h2
        simp only [dictSet, if_pos rfl, lookup]
        rw [if_neg (fun hh => h hh.symm), if_neg (fun hh => h hh.symm)]
      · simp only [dictSet, if_neg h2, lookup]
        by_cases h3 : k2 = k
        · rw [if_pos h3, if_pos h3]
        · rw [if_neg h3, if_neg h3, ih]

/-! ### Claim theorems -/

/-- C9: `get_next_log_number` changes at most the entry of the user it is
called for: every other key has the same lookup result (so the same value,
and the same presence or absence) before and after the call. -/
theorem get_next_log_number_frame (m : Counters) (u k : Str) (h : k ≠ u) :
    lookup (get_next_log_number m u).2 k = lookup m k := by
  cases hl : lookup m u with
  | none => simp [get_next_log_number, hl, lookup_dictSet_ne _ _ _ _ h]
  | some v => simp [get_next_log_number, hl, lookup_dictSet_ne _ _ _ _ h]

theorem get_next_log_number_frame_witness :
    "a".toList ≠ "b".toList
    ∧ lookup (get_next_log_number [("a".toList, 3)] "b".toList).2 "a".toList
        = lookup [("a".toList, 3)] "a".toList :=
  ⟨by decide, get_next_log_number_frame _ _ _ (by decide)⟩

/-- C5: resetting a user's counter to 5 and then calling
`get_next_log_number` for that user returns 6 — both for a self-reset by
that user and for an admin reset that targets the user. -/
theorem reset_five_then_next_is_six (m : Counters) (invoker u : Str)
    (isAdm : Bool) :
    (get_next_log_number (reset_log_command m u isAdm none 5).2 u).1 = 6
    ∧ (get_next_log_number (reset_log_command m invoker true (some u) 5).2 u).1
        = 6 := by
  constructor <;>
    simp [reset_log_command, get_next_log_number, lookup_dictSet_self]

/-- C10: a self-reset stores its `new_number` argument unconditionally, for
any integer including zero and negative values, and the following
`get_next_log_number` call returns that value plus one. -/
theorem reset_log_command_stores_any_int (m : Counters) (invoker : Str)
    (isAdm : Bool) (v : Int) :
    (reset_log_command m invoker isAdm none v).1 = ResetResponse.selfReset v
    ∧ lookup (reset_log_command m invoker isAdm none v).2 invoker = some v
    ∧ (get_next_log_number (reset_log_command m invoker isAdm none v).2
        invoker).1 = v + 1 := by
  refine ⟨rfl, ?_, ?_⟩ <;>
    simp [reset_log_command, get_next_log_number, lookup_dictSet_self]

/-- C8: a non-admin invoking `reset_log` with a target user other than
themselves is rejected with a private (ephemeral) message, and the counter
mapping is returned unchanged. -/
theorem reset_log_command_non_admin_rejected (m : Counters) (invoker t : Str)
    (v : Int) (_h : t ≠ invoker) :
    reset_log_command m invoker false (some t) v
        = (ResetResponse.notAdminError, m)
    ∧ ResetResponse.ephemeral
        (reset_log_command m invoker false (some t) v).1 = true :=
  ⟨rfl, rfl⟩

theorem reset_log_command_non_admin_rejected_witness :
    "2".toList ≠ "1".toList
    ∧ (reset_log_command [("1".toList, 4)] "1".toList false (some "2".toList) 0
          = (ResetResponse.notAdminError, [("1".toList, 4)])
        ∧ ResetResponse.ephemeral
            (reset_log_command [("1".toList, 4)] "1".toList false
              (some "2".toList) 0).1 = true) :=
  ⟨by decide, reset_log_command_non_admin_rejected _ _ _ 0 (by decide)⟩

/-- C2: for every username whose trimmed length is at least 4, the code is
the uppercase of the first two plus the last two characters of the trimmed
input, it has exactly 4 characters, and every character is case-normalized
(fixed by `Char.toUpper`). -/
theorem generate_user_code_long (username : Str)
    (h : 4 ≤ (pyStrip username).length) :
    generate_user_code username
        = pyUpper ((pyStrip username).take 2
            ++ (pyStrip username).drop ((pyStrip username).length - 2))
    ∧ (generate_user_code username).length = 4
    ∧ ∀ c ∈ generate_user_code username, Char.toUpper c = c := by
  have hlt : ¬((pyStrip username).length < 2) := by omega
  have h2 : ¬((pyStrip username).length = 2) := by omega
  have h3 : ¬((pyStrip username).length = 3) := by omega
  have heq : generate_user_code username
      = pyUpper ((pyStrip username).take 2
          ++ (pyStrip username).drop ((pyStrip username).length - 2)) := by
    simp only [generate_user_code]
    rw [if_neg hlt, if_neg h2, if_neg h3]
  refine ⟨heq, ?_, ?_⟩
  · rw [heq]
    simp only [pyUpper, List.length_map, List.length_append, List.length_take,
      List.length_drop]
    omega
  · intro c hc
    rw [heq] at hc
    simp only [pyUpper, List.mem_map] at hc
    obtain ⟨a, _, rfl⟩ := hc
    exact toUpper_toUpper a

theorem generate_user_code_long_witness :
    4 ≤ (pyStrip "alice".toList).length
    ∧ (generate_user_code "alice".toList
          = pyUpper ((pyStrip "alice".toList).take 2
              ++ (pyStrip "alice".toList).drop
                  ((pyStrip "alice".toList).length - 2))
        ∧ (generate_user_code "alice".toList).length = 4
        ∧ ∀ c ∈ generate_user_code "alice".toList, Char.toUpper c = c) :=
  ⟨by decide, generate_user_code_long _ (by decide)⟩

/-- C3 counterexample: on the one-character username "a" the code returns
"AAAA" (the `len < 2` branch repeats the username four times), not "AA" as
the claim states. -/
theorem generate_user_code_short_cex :
    generate_user_code ['a'] = "AAAA".toList
    ∧ generate_user_code ['a'] ≠ "AA".toList := by decide

/-- C3 amended: for every username whose trimmed length is less than 2 the
result is the uppercase of the trimmed username repeated four times (so
four characters for a one-character input and empty for empty input); for
"a" the result is "AAAA" and for the empty input it is the empty string. -/
theorem generate_user_code_short (username : Str)
    (h : (pyStrip username).length < 2) :
    generate_user_code username
        = pyUpper ((pyStrip username ++ pyStrip username)
            ++ (pyStrip username ++ pyStrip username))
    ∧ (generate_user_code username).length = 4 * (pyStrip username).length
    ∧ generate_user_code ['a'] = "AAAA".toList
    ∧ generate_user_code [] = [] := by
  have heq : generate_user_code username
      = pyUpper ((pyStrip username ++ pyStrip username)
          ++ (pyStrip username ++ pyStrip username)) := by
    simp only [generate_user_code]
    rw [if_pos h]
  refine ⟨heq, ?_, by decide, by decide⟩
  rw [heq]
  simp only [pyUpper, List.length_map, List.length_append]
  omega

theorem generate_user_code_short_witness :
    (pyStrip ['a']).length < 2
    ∧ (generate_user_code ['a']
          = pyUpper ((pyStrip ['a'] ++ pyStrip ['a'])
              ++ (pyStrip ['a'] ++ pyStrip ['a']))
        ∧ (generate_user_code ['a']).length = 4 * (pyStrip ['a']).length
        ∧ generate_user_code ['a'] = "AAAA".toList
        ∧ generate_user_code [] = []) :=
  ⟨by decide, generate_user_code_short _ (by decide)⟩

/-! ### Counter sequence lemmas -/

theorem runNext_from (u : Str) (n : Nat) :
    ∀ (m : Counters) (c : Int), lookup m u = some c →
      (runNext m u n).1 = (List.range n).map (fun i : Nat => c + 1 + (i : Int)) := by
  induction n with
  | zero =>
      intro m c _
      simp [runNext]
  | succ n ih =>
      intro m c h
      have hnext : get_next_log_number m u = (c + 1, dictSet m u (c + 1)) := by
        simp [get_next_log_number, h]
      have hlook : lookup (dictSet m u (c + 1)) u = some (c + 1) :=
        lookup_dictSet_self m u (c + 1)
      simp only [runNext, hnext]
      rw [ih _ _ hlook, List.range_succ_eq_map]
      simp only [List.map_cons, List.map_map, Nat.cast_zero, add_zero]
      congr 1
      apply List.map_congr_left
      intro i _
      simp only [Function.comp_apply]
      push_cast
      ring

/-- C4: starting from a mapping in which the user is absent, `n` successive
calls of `get_next_log_number` for that user return 1, 2, ..., n in order. -/
theorem get_next_fresh_sequence (m : Counters) (u : Str) (n : Nat)
    (h : lookup m u = none) :
    (runNext m u n).1 = (List.range n).map (fun i : Nat => (i : Int) + 1) := by
  cases n with
  | zero => simp [runNext]
  | succ n =>
      have hnext : get_next_log_number m u = (1, dictSet m u 1) := by
        simp [get_next_log_number, h]
      have hlook : lookup (dictSet m u 1) u = some 1 :=
        lookup_dictSet_self m u 1
      simp only [runNext, hnext]
      rw [runNext_from u n _ 1 hlook, List.range_succ_eq_map]
      simp only [List.map_cons, List.map_map, Nat.cast_zero, zero_add]
      congr 1
      apply List.map_congr_left
      intro i _
      simp only [Function.comp_apply]
      push_cast
      ring

theorem get_next_fresh_sequence_witness :
    lookup ([] : Counters) "u".toList = none
    ∧ (runNext [] "u".toList 3).1
        = (List.range 3).map (fun i : Nat => (i : Int) + 1) :=
  ⟨rfl, get_next_fresh_sequence [] _ 3 rfl⟩

/-! ### Formatting lemmas -/

theorem natStrGo_ne_nil (fuel n : Nat) : natStrGo (fuel + 1) n ≠ [] := by
  simp only [natStrGo]
  split <;> simp

theorem intStr_ne_nil (v : Int) : intStr v ≠ [] := by
  simp only [intStr]
  split
  · simp
  · exact natStrGo_ne_nil _ _

/-- C6: the counter in the formatted entry is zero-padded to at least two
digits and never truncated: value 3 renders as "03" and value 150 renders
as "150" inside the shape `[<tag>] [<counter>] <date>:` followed by a
newline and the message; in general the rendered counter has at least two
characters and always ends with the full decimal representation of the
value. -/
theorem format_entry_padding :
    (∀ tag date msg : Str,
        format_entry tag 3 date msg
          = ['['] ++ tag
              ++ (']' :: ' ' :: '[' :: '0' :: '3' :: ']' :: ' ' :: date)
              ++ (':' :: '\n' :: msg))
    ∧ (∀ tag date msg : Str,
        format_entry tag 150 date msg
          = ['['] ++ tag
              ++ (']' :: ' ' :: '[' :: '1' :: '5' :: '0' :: ']' :: ' ' :: date)
              ++ (':' :: '\n' :: msg))
    ∧ (∀ v : Int, 2 ≤ (format_02d v).length)
    ∧ (∀ v : Int, intStr v <:+ format_02d v) := by
  have h03 : format_02d 3 = ['0', '3'] := by decide
  have h150 : format_02d 150 = ['1', '5', '0'] := by decide
  have hlen : ∀ v : Int, 1 ≤ (intStr v).length := by
    intro v
    have hne := intStr_ne_nil v
    cases hs : intStr v with
    | nil => exact absurd hs hne
    | cons a l => simp
  refine ⟨?_, ?_, ?_, ?_⟩
  · intro tag date msg
    simp [format_entry, h03]
  · intro tag date msg
    simp [format_entry, h150]
  · intro v
    have := hlen v
    simp only [format_02d]
    split
    · simp only [List.length_cons]
      omega
    · rename_i h
      omega
  · intro v
    simp only [format_02d]
    split
    · exact ⟨['0'], rfl⟩
    · exact List.suffix_refl _

/-! ### Log command lemmas -/

theorem date_body_eq_spec (d : Str) : date_body d = date_pattern_spec d := by
  cases d with
  | nil => rfl
  | cons a l => rfl

theorem log_command_some_eq (m : Counters) (uid uname msg now d : Str)
    (hne : d ≠ []) :
    log_command m uid uname msg (some d) now
      = if date_pattern_match d then
          (LogResponse.entry (format_entry (generate_user_code uname)
              (get_next_log_number m uid).1 d msg),
            (get_next_log_number m uid).2)
        else (LogResponse.invalidDate, (get_next_log_number m uid).2) := by
  obtain ⟨a, l, rfl⟩ : ∃ a l, d = a :: l := by
    cases d with
    | nil => exact absurd rfl hne
    | cons a l => exact ⟨a, l, rfl⟩
  simp only [log_command, List.isEmpty_cons, Bool.false_eq_true, if_false]

/-- C7 corrected: a non-empty caller-supplied date is rejected exactly when
it fails the regex check; the regex accepts the ten-character pattern of
two digits, slash, two digits, slash, four digits, and also the same
pattern followed by one trailing newline (Python's `$`); acceptance is
independent of calendar validity, and the calendar-invalid "31/02/2024" is
accepted and used verbatim in the formatted entry. -/
theorem log_command_date_acceptance (m : Counters) (uid uname msg now d : Str)
    (hne : d ≠ []) :
    ((log_command m uid uname msg (some d) now).1 = LogResponse.invalidDate
        ↔ date_pattern_match d = false)
    ∧ date_pattern_match d
        = (date_pattern_spec d
            || (decide (d.getLast? = some '\n')
                  && date_pattern_spec d.dropLast))
    ∧ date_pattern_spec "31/02/2024".toList = true
    ∧ (log_command m uid uname msg (some "31/02/2024".toList) now).1
        = LogResponse.entry
            (format_entry (generate_user_code uname)
              (get_next_log_number m uid).1 "31/02/2024".toList msg) := by
  refine ⟨?_, ?_, by decide, ?_⟩
  · rw [log_command_some_eq m uid uname msg now d hne]
    by_cases hm : date_pattern_match d
    · simp [hm]
    · simp [hm]
  · simp only [date_pattern_match, date_body_eq_spec]
  · rw [log_command_some_eq m uid uname msg now _ (by decide),
      if_pos (by decide)]

theorem log_command_date_acceptance_witness :
    "31/02/2024".toList ≠ []
    ∧ (((log_command [] "7".toList "alice".toList "msg".toList
            (some "31/02/2024".toList) "now".toList).1 = LogResponse.invalidDate
          ↔ date_pattern_match "31/02/2024".toList = false)
        ∧ date_pattern_match "31/02/2024".toList
            = (date_pattern_spec "31/02/2024".toList
                || (decide ("31/02/2024".toList.getLast? = some '\n')
                      && date_pattern_spec "31/02/2024".toList.dropLast))
        ∧ date_pattern_spec "31/02/2024".toList = true
        ∧ (log_command [] "7".toList "alice".toList "msg".toList
              (some "31/02/2024".toList) "now".toList).1
            = LogResponse.entry
                (format_entry (generate_user_code "alice".toList)
                  (get_next_log_number [] "7".toList).1
                  "31/02/2024".toList "msg".toList)) :=
  ⟨by decide,
    log_command_date_acceptance [] "7".toList "alice".toList "msg".toList
      "now".toList "31/02/2024".toList (by decide)⟩

/-- C7 counterexample: the date "31/02/2024" followed by one newline is
accepted by `log_command` (Python's `$` anchor matches just before a final
newline) even though it does not match the claimed ten-character
two-digits/slash/two-digits/slash/four-digits pattern. -/
theorem log_command_date_acceptance_cex :
    (log_command [] "7".toList "u".toList "m".toList
        (some ("31/02/2024".toList ++ ['\n'])) "now".toList).1
      ≠ LogResponse.invalidDate
    ∧ date_pattern_spec ("31/02/2024".toList ++ ['\n']) = false := by decide

/-- C1 counterexample: a `/log` invocation with the malformed date "bad"
is rejected with the private invalid-date message, yet the invoking user's
counter is not the same after the invocation as before it: the mapping
entry for the user changes (here from absent to 1). -/
theorem log_command_bad_date_cex :
    (log_command [] "7".toList "alice".toList "msg".toList
        (some "bad".toList) "now".toList).1 = LogResponse.invalidDate
    ∧ LogResponse.ephemeral
        (log_command [] "7".toList "alice".toList "msg".toList
          (some "bad".toList) "now".toList).1 = true
    ∧ lookup (log_command [] "7".toList "alice".toList "msg".toList
          (some "bad".toList) "now".toList).2 "7".toList
        ≠ lookup ([] : Counters) "7".toList := by decide

/-- C1 corrected: a `/log` invocation whose non-empty supplied date fails
the regex check is rejected with the private (ephemeral) invalid-date
message and no entry is produced, but state IS mutated: the invoking
user's counter has already been incremented (absent keys are set to 1)
because `get_next_log_number` runs before the date is validated. -/
theorem log_command_bad_date_rejects_but_increments (m : Counters)
    (uid uname msg now d : Str) (hne : d ≠ [])
    (hbad : date_pattern_match d = false) :
    (log_command m uid uname msg (some d) now).1 = LogResponse.invalidDate
    ∧ LogResponse.ephemeral (log_command m uid uname msg (some d) now).1 = true
    ∧ lookup (log_command m uid uname msg (some d) now).2 uid
        = some ((lookup m uid).getD 0 + 1) := by
  rw [log_command_some_eq m uid uname msg now d hne, if_neg (by simp [hbad])]
  refine ⟨rfl, rfl, ?_⟩
  cases hl : lookup m uid with
  | none => simp [get_next_log_number, hl, lookup_dictSet_self]
  | some v => simp [get_next_log_number, hl, lookup_dictSet_self]

theorem log_command_bad_date_rejects_but_increments_witness :
    "bad".toList ≠ []
    ∧ date_pattern_match "bad".toList = false
    ∧ ((log_command [("7".toList, 4)] "7".toList "alice".toList "msg".toList
            (some "bad".toList) "now".toList).1 = LogResponse.invalidDate
        ∧ LogResponse.ephemeral
            (log_command [("7".toList, 4)] "7".toList "alice".toList
              "msg".toList (some "bad".toList) "now".toList).1 = true
        ∧ lookup (log_command [("7".toList, 4)] "7".toList "alice".toList
              "msg".toList (some "bad".toList) "now".toList).2 "7".toList
            = some ((lookup [("7".toList, 4)] "7".toList).getD 0 + 1)) :=
  ⟨by decide, by decide,
    log_command_bad_date_rejects_but_increments [("7".toList, 4)] "7".toList
      "alice".toList "msg".toList "now".toList "bad".toList
      (by decide) (by decide)⟩
